import Mathlib

/-!
Verification development for the tux-agent repository.

Shallow embedding of the HARD CORE components:
- `Provider` : `src/core/api_providers.py` (`APIProvider.make_request`)
- `ToolReg`  : `src/core/tool_executor.py` (`ToolExecutor.execute_tool_sync`)
- `FileOps`  : `src/core/tools/unix/file_ops.py` (`read_file` windowing)
- `Agent`    : `src/daemon/kimi_executor.py` (`KimiExecutor.execute`,
               `_execute_tool_calls`)
- `Threads`  : `src/core/thread_manager.py` (`get_thread_list`)

Machine integers are modelled as `Nat`/`Int`; fallible operations return
structured results exactly as the Python code does (the code converts all
exceptions into `{'success': False, ...}` dictionaries or `{'error': True,
...}` dictionaries before they cross a component boundary).
-/

/-- Substring test: `strContainsSub h n = true` iff `n` occurs as a
contiguous substring of `h` (models Python's `in` operator on strings). -/
def strContainsSub (h n : String) : Bool :=
  let hl := h.toList
  let nl := n.toList
  (List.range (hl.length + 1)).any (fun i => nl = (hl.drop i).take nl.length)

namespace Provider

/-- Outcome of one HTTP attempt inside `make_request`'s `for` loop: either
`client.post` returns a response object carrying a status code and a parsed
JSON body, or it raises one of the exception classes the code catches
(`httpx.TimeoutException`, `httpx.ConnectError`, `httpx.HTTPStatusError`
with a status code, or any other exception with a message). -/
inductive AttemptOutcome where
  | response (status : Nat) (body : String)
  | timeoutExc
  | connectExc
  | httpStatusExc (status : Nat)
  | otherExc (msg : String)
deriving Repr, DecidableEq

/-- The value of `make_request`'s `last_error` local: `None` initially, one
of the sentinel strings `"timeout"` / `"connection"` / `"server"`, or the
stringified unexpected exception. -/
inductive LastError where
  | noneYet
  | timeout
  | connection
  | server
  | other (msg : String)
deriving Repr, DecidableEq

/-- Return value of `make_request`: either the parsed successful response
(`self._parse_response(response.json())`, which is the identity for the
base `APIProvider`) or an `{'error': True, 'message': ...}` dictionary. -/
inductive RequestResult where
  | ok (body : String)
  | error (message : String)
deriving Repr, DecidableEq

/-- A run of `make_request` together with its observable effects: how many
HTTP attempts were performed and which `time.sleep` delays (in seconds)
were executed, in order. -/
structure RequestTrace where
  result : RequestResult
  attemptsMade : Nat
  waits : List Nat
deriving Repr, DecidableEq

/-- The message produced after the `for` loop exhausts all attempts
(`# All retries failed` block of `make_request`).  `str(None).lower()` is
`"none"`, which contains none of the scanned substrings, so the
`LastError.noneYet` case lands on the final `f"Error: {last_error}"`. -/
def exhaustedMessage : LastError → String
  | .timeout => "Request timed out after multiple attempts. Please try again."
  | .connection => "Cannot connect to AI service after multiple attempts. Please check your internet connection."
  | .server => "AI service is temporarily unavailable. Please try again later."
  | .other msg =>
      let e := msg.toLower
      if strContainsSub e "connection" || strContainsSub e "network" then
        "Network error. Please check your internet connection."
      else if strContainsSub e "dns" || strContainsSub e "resolve" then
        "Cannot reach AI service. Please check your internet connection."
      else s!"Error: {msg}"
  | .noneYet => "Error: None"

/-- One step of `make_request`'s `for attempt in range(max_retries)` loop.
`fuel` counts the remaining iterations of the `range` (the top-level call
uses `fuel = maxRetries`, `attempt = 0`, so `attempt + fuel = maxRetries`
throughout).  The successive attempt outcomes are supplied by `outcomes`.
Mirrors the branch structure of `make_request` line by line:
* a returned response with status ≠ 200 retries (sleep `2 ** attempt`)
  only when `status >= 500 and attempt < max_retries - 1`, otherwise
  returns `API error: {status}` immediately; a 200 returns the parsed body;
* `TimeoutException` / `ConnectError` set `last_error` and sleep-retry
  while `attempt < max_retries - 1` (on the last attempt the loop simply
  ends and falls through to the exhausted-message block);
* `HTTPStatusError` returns immediately on 401/403 with the actionable
  messages, sleep-retries `5 * (attempt + 1)` on 429 (returning the rate
  limit message once the budget is gone), sleep-retries on 5xx (returning
  `API error: {status}` on the last attempt), and returns
  `API error: {status}` for any other status;
* any other exception records the message and sleep-retries. -/
def makeRequestGo (outcomes : Nat → AttemptOutcome) (maxRetries : Nat) :
    Nat → Nat → LastError → List Nat → RequestTrace
  | 0, attempt, lastErr, waits =>
      { result := .error (exhaustedMessage lastErr), attemptsMade := attempt, waits := waits }
  | fuel + 1, attempt, lastErr, waits =>
      match outcomes attempt with
      | .response status body =>
          if status ≠ 200 then
            if status ≥ 500 ∧ attempt < maxRetries - 1 then
              makeRequestGo outcomes maxRetries fuel (attempt + 1) lastErr (waits ++ [2 ^ attempt])
            else
              { result := .error s!"API error: {status}", attemptsMade := attempt + 1, waits := waits }
          else
            { result := .ok body, attemptsMade := attempt + 1, waits := waits }
      | .timeoutExc =>
          if attempt < maxRetries - 1 then
            makeRequestGo outcomes maxRetries fuel (attempt + 1) .timeout (waits ++ [2 ^ attempt])
          else
            makeRequestGo outcomes maxRetries fuel (attempt + 1) .timeout waits
      | .connectExc =>
          if attempt < maxRetries - 1 then
            makeRequestGo outcomes maxRetries fuel (attempt + 1) .connection (waits ++ [2 ^ attempt])
          else
            makeRequestGo outcomes maxRetries fuel (attempt + 1) .connection waits
      | .httpStatusExc status =>
          if status = 401 then
            { result := .error "Invalid API key. Please check your API key in Settings.",
              attemptsMade := attempt + 1, waits := waits }
          else if status = 403 then
            { result := .error "Access denied. Your API key may not have the required permissions.",
              attemptsMade := attempt + 1, waits := waits }
          else if status = 429 then
            if attempt < maxRetries - 1 then
              makeRequestGo outcomes maxRetries fuel (attempt + 1) lastErr (waits ++ [5 * (attempt + 1)])
            else
              { result := .error "Rate limit exceeded. Please wait a moment and try again.",
                attemptsMade := attempt + 1, waits := waits }
          else if status ≥ 500 then
            if attempt < maxRetries - 1 then
              makeRequestGo outcomes maxRetries fuel (attempt + 1) .server (waits ++ [2 ^ attempt])
            else
              { result := .error s!"API error: {status}", attemptsMade := attempt + 1, waits := waits }
          else
            { result := .error s!"API error: {status}", attemptsMade := attempt + 1, waits := waits }
      | .otherExc msg =>
          if attempt < maxRetries - 1 then
            makeRequestGo outcomes maxRetries fuel (attempt + 1) (.other msg) (waits ++ [2 ^ attempt])
          else
            makeRequestGo outcomes maxRetries fuel (attempt + 1) (.other msg) waits

/-- `APIProvider.make_request` with the network abstracted as the sequence
of per-attempt outcomes.  `maxRetries` is the `max_retries` parameter
(default 3). -/
def make_request (outcomes : Nat → AttemptOutcome) (maxRetries : Nat := 3) : RequestTrace :=
  makeRequestGo outcomes maxRetries maxRetries 0 .noneYet []

end Provider

namespace ToolReg

/-- What a registered tool callable does when invoked (`ToolExecutor`
converts every one of these into a structured result dictionary): it
returns a dict with `success`/`output` entries, returns a non-dict value
(stringified by the executor), raises a `TypeError` with a message, or
raises any other exception with a message. -/
inductive ToolOutcome where
  | returnsDict (success : Bool) (output : String)
  | returnsNonDict (asString : String)
  | raisesTypeError (msg : String)
  | raisesExc (msg : String)

/-- The structured result `execute_tool_sync` returns: the `success` flag,
the `output` string, and the `platform` debug entry added to successful
results. -/
structure ToolResult where
  success : Bool
  output : String
  platform : Option String := Option.none
deriving Repr, DecidableEq

/-- The state of a `ToolExecutor`: the `self.functions` registry in
insertion order (tool name → callable), `self.router.platform`, and
`self._token_context` modelled as the kwargs-injection it performs
(`kwargs['_context'] = self._token_context`) when present.  The argument
map type is abstract (`Args`). -/
structure ToolExecutorModel (Args : Type) where
  functions : List (String × (Args → ToolOutcome))
  platform : String
  tokenContext : Option (Args → Args) := Option.none

/-- `ToolExecutor.execute_tool_sync`.  Unknown names return the
not-found result listing every registered tool name; otherwise the token
context is injected for `read_file`, the callable runs, non-dict results
are wrapped as failures, the platform is attached to successful results,
and every exception class the code catches is converted into a
`success=False` result with the corresponding message. -/
def execute_tool_sync {Args : Type} (ex : ToolExecutorModel Args)
    (tool_name : String) (kwargs : Args) : ToolResult :=
  match ex.functions.lookup tool_name with
  | Option.none =>
      { success := false,
        output := "Tool '" ++ tool_name ++ "' not found. Available tools: " ++
          String.intercalate ", " (ex.functions.map Prod.fst) }
  | Option.some f =>
      let kwargs := match ex.tokenContext with
        | Option.some inj => if tool_name = "read_file" then inj kwargs else kwargs
        | Option.none => kwargs
      match f kwargs with
      | .returnsDict success output =>
          { success := success, output := output,
            platform := if success then Option.some ex.platform else Option.none }
      | .returnsNonDict s =>
          { success := false, output := s }
      | .raisesTypeError msg =>
          if strContainsSub msg "unexpected keyword argument" then
            { success := false, output := s!"Invalid arguments for '{tool_name}': {msg}" }
          else
            { success := false, output := s!"Tool execution error for '{tool_name}': {msg}" }
      | .raisesExc msg =>
          { success := false, output := s!"Tool '{tool_name}' failed: {msg}" }

end ToolReg

namespace Agent

/-- One tool call requested by the model:
`{id, function: {name, arguments: jsonString}}`.  `arguments` is the raw
JSON blob string. -/
structure ToolCallReq where
  id : String
  name : String
  arguments : String
deriving Repr, DecidableEq

/-- The assistant message extracted from `choices[0]["message"]`: its text
content and the (possibly empty) list of requested tool calls. -/
structure AssistantMessage where
  content : String
  tool_calls : List ToolCallReq
deriving Repr, DecidableEq

/-- What one provider round trip delivers to `KimiExecutor.execute`: an
`{'error': True, 'message': ...}` result from `make_request`, a response
with an empty `choices` list, or an assistant message. -/
inductive ProviderResponse where
  | apiError (message : String)
  | noChoices
  | assistant (m : AssistantMessage)
deriving Repr, DecidableEq

/-- A `ConversationMessage` of `SimpleConversation` (timestamps and the
metadata map, which no claim observes, are omitted). -/
structure ConvMessage where
  role : String
  content : String
  images : List String := []
deriving Repr, DecidableEq

/-- A `ToolExecution` record appended by
`SimpleConversation.add_tool_execution` (timestamp and wall-clock
`execution_time` omitted). -/
structure ToolExecutionRec (Args : Type) where
  tool_name : String
  input_args : Args
  result : ToolReg.ToolResult
  success : Bool

/-- A `SimpleConversation`: the ordered message log and the ordered
tool-execution log. -/
structure Conversation (Args : Type) where
  messages : List ConvMessage
  tool_executions : List (ToolExecutionRec Args)

/-- `SimpleConversation.add_user_message`. -/
def addUserMessage {Args : Type} (content : String) (images : List String)
    (c : Conversation Args) : Conversation Args :=
  { c with messages := c.messages ++ [{ role := "user", content := content, images := images }] }

/-- `SimpleConversation.add_assistant_message` (as called from
`KimiExecutor`, always without `tool_results`). -/
def addAssistantMessage {Args : Type} (content : String)
    (c : Conversation Args) : Conversation Args :=
  { c with messages := c.messages ++ [{ role := "assistant", content := content }] }

/-- A tool-result message appended to the in-flight API message array:
`{"tool_call_id": ..., "role": "tool", "content": ...}`. -/
structure ToolMessage where
  tool_call_id : String
  role : String
  content : String
deriving Repr, DecidableEq

/-- An entry of the in-flight message array `messages` built by
`_build_messages` and extended during the tool loop. -/
inductive ChatMsg where
  | system (content : String)
  | user (content : String) (images : List String)
  | assistantTurn (m : AssistantMessage)
  | toolResult (t : ToolMessage)

/-- `tool_args = json.loads(tool_args_str)` with the `JSONDecodeError`
handler: a failed parse yields the empty argument map `{}`.  The JSON
parser and the empty map are abstract parameters (`parseJson`,
`emptyArgs`). -/
def toolCallArgs {Args : Type} (parseJson : String → Option Args) (emptyArgs : Args)
    (call : ToolCallReq) : Args :=
  (parseJson call.arguments).getD emptyArgs

/-- The record `_execute_tool_calls` passes to
`conversation.add_tool_execution` for one call. -/
def toolCallRecord {Args : Type} (parseJson : String → Option Args) (emptyArgs : Args)
    (executor : String → Args → ToolReg.ToolResult) (call : ToolCallReq) :
    ToolExecutionRec Args :=
  let args := toolCallArgs parseJson emptyArgs call
  let result := executor call.name args
  { tool_name := call.name, input_args := args, result := result, success := result.success }

/-- `result_content = result.get("output", str(result))` followed by the
10 000-character truncation with the explicit `"... (truncated)"`
marker. -/
def fmtToolContent (s : String) : String :=
  if s.length > 10000 then s.take 10000 ++ "\n... (truncated)" else s

/-- The tool-result message `_execute_tool_calls` appends for one call,
tagged with the call id the provider issued. -/
def toolCallMessage {Args : Type} (parseJson : String → Option Args) (emptyArgs : Args)
    (executor : String → Args → ToolReg.ToolResult) (call : ToolCallReq) : ToolMessage :=
  { tool_call_id := call.id, role := "tool",
    content := fmtToolContent ((executor call.name (toolCallArgs parseJson emptyArgs call)).output) }

/-- `KimiExecutor._execute_tool_calls`: processes the calls strictly in
order, executing each tool, recording every invocation into the
conversation's tool-execution log (when a conversation is set), and
collecting the tool-result messages.  Returns the messages, the updated
conversation, and the number of executed calls (the increment of
`self.total_tool_calls`). -/
def executeToolCalls {Args : Type} (parseJson : String → Option Args) (emptyArgs : Args)
    (executor : String → Args → ToolReg.ToolResult) :
    Option (Conversation Args) → List ToolCallReq →
      List ToolMessage × Option (Conversation Args) × Nat
  | conv, [] => ([], conv, 0)
  | conv, call :: rest =>
      let record := toolCallRecord parseJson emptyArgs executor call
      let conv' := conv.map (fun c =>
        { c with tool_executions := c.tool_executions ++ [record] })
      let (msgs, convF, n) := executeToolCalls parseJson emptyArgs executor conv' rest
      (toolCallMessage parseJson emptyArgs executor call :: msgs, convF, n + 1)

/-- The fixed fallback text returned when the iteration cap is reached. -/
def maxIterationsMessage : String :=
  "I've completed the maximum number of tool operations. Here's what I found so far."

/-- The observable outcome of `KimiExecutor.execute`: the returned reply,
the final conversation, the number of provider round trips performed, and
the number of tool calls executed. -/
structure ExecResult (Args : Type) where
  reply : String
  conversation : Option (Conversation Args)
  trips : Nat
  totalToolCalls : Nat

/-- The `while iteration < max_tool_iterations` loop of
`KimiExecutor.execute`.  `fuel` is the number of remaining iterations
(`max_tool_iterations - iteration`); `trips` counts the provider requests
already made, and doubles as the index into the abstract response sequence
`provider` (the response the backend gives to the next request).  Each
iteration makes one request; an error response, an empty `choices` list,
or an assistant message without tool calls ends the loop, otherwise the
assistant turn and the tool results are appended to the in-flight message
array and the loop repeats.  When fuel runs out the fixed fallback message
is appended to the conversation and returned. -/
def executeGo {Args : Type} (provider : Nat → ProviderResponse)
    (parseJson : String → Option Args) (emptyArgs : Args)
    (executor : String → Args → ToolReg.ToolResult) :
    Nat → List ChatMsg → Option (Conversation Args) → Nat → Nat → ExecResult Args
  | 0, _, conv, trips, tc =>
      { reply := maxIterationsMessage,
        conversation := conv.map (addAssistantMessage maxIterationsMessage),
        trips := trips, totalToolCalls := tc }
  | fuel + 1, msgs, conv, trips, tc =>
      match provider trips with
      | .apiError m =>
          { reply := s!"I encountered an error: {m}",
            conversation := conv.map (addAssistantMessage s!"Error: {m}"),
            trips := trips + 1, totalToolCalls := tc }
      | .noChoices =>
          { reply := "I didn't receive a response. Please try again.",
            conversation := conv, trips := trips + 1, totalToolCalls := tc }
      | .assistant am =>
          if am.tool_calls.isEmpty then
            { reply := am.content,
              conversation := conv.map (addAssistantMessage am.content),
              trips := trips + 1, totalToolCalls := tc }
          else
            let r := executeToolCalls parseJson emptyArgs executor conv am.tool_calls
            executeGo provider parseJson emptyArgs executor fuel
              (msgs ++ [ChatMsg.assistantTurn am] ++ r.1.map ChatMsg.toolResult)
              r.2.1 (trips + 1) (tc + r.2.2)

/-- `KimiExecutor.execute`.  `limitError` is the result of
`_check_usage_limits` (returned verbatim when present, before any provider
traffic); `initMessages` is the array `_build_messages` produced from the
system prompt, the stored history and the new user message; the user
message is appended to the conversation before the loop starts with
`max_tool_iterations` iterations of budget. -/
def execute {Args : Type} (limitError : Option String)
    (provider : Nat → ProviderResponse)
    (parseJson : String → Option Args) (emptyArgs : Args)
    (executor : String → Args → ToolReg.ToolResult)
    (initMessages : List ChatMsg) (user_message : String) (images : List String)
    (conv : Option (Conversation Args)) (max_tool_iterations : Nat := 10) :
    ExecResult Args :=
  match limitError with
  | Option.some e =>
      { reply := e, conversation := conv, trips := 0, totalToolCalls := 0 }
  | Option.none =>
      let conv := conv.map (addUserMessage user_message images)
      executeGo provider parseJson emptyArgs executor max_tool_iterations
        initMessages conv 0 0

namespace Lemmas

/-- `_execute_tool_calls` in closed form: one result message per call in
order, one tool-execution record per call appended in order, and a count
equal to the number of calls. -/
theorem executeToolCalls_eq {Args : Type} (parseJson : String → Option Args)
    (emptyArgs : Args) (executor : String → Args → ToolReg.ToolResult) :
    ∀ (calls : List ToolCallReq) (conv : Option (Conversation Args)),
      executeToolCalls parseJson emptyArgs executor conv calls =
        (calls.map (toolCallMessage parseJson emptyArgs executor),
         conv.map (fun c =>
           { c with tool_executions :=
               c.tool_executions ++ calls.map (toolCallRecord parseJson emptyArgs executor) }),
         calls.length) := by
  intro calls
  induction calls with
  | nil =>
      intro conv
      cases conv <;> simp [executeToolCalls]
  | cons call rest ih =>
      intro conv
      cases conv with
      | none => simp [executeToolCalls, ih]
      | some c => simp [executeToolCalls, ih]

/-- The loop makes at most `fuel` further provider round trips. -/
theorem executeGo_trips_le {Args : Type} (provider : Nat → ProviderResponse)
    (parseJson : String → Option Args) (emptyArgs : Args)
    (executor : String → Args → ToolReg.ToolResult) :
    ∀ (fuel : Nat) (msgs : List ChatMsg) (conv : Option (Conversation Args))
      (trips tc : Nat),
      (executeGo provider parseJson emptyArgs executor fuel msgs conv trips tc).trips ≤
        trips + fuel := by
  intro fuel
  induction fuel with
  | zero => intro msgs conv trips tc; simp [executeGo]
  | succ n ih =>
      intro msgs conv trips tc
      simp only [executeGo]
      cases hp : provider trips with
      | apiError m => simp
      | noChoices => simp
      | assistant am =>
          by_cases he : am.tool_calls.isEmpty
          · simp [he, Nat.le_add_right]
          · simp only [he, Bool.false_eq_true, if_false]
            exact Nat.le_trans (ih _ _ _ _) (by omega)

/-- If every remaining provider round answers with tool calls, the loop
exhausts its fuel, returns the fixed fallback message, and appends exactly
that assistant message to the conversation (whose message log is otherwise
untouched by tool execution). -/
theorem executeGo_max_iterations {Args : Type} (provider : Nat → ProviderResponse)
    (parseJson : String → Option Args) (emptyArgs : Args)
    (executor : String → Args → ToolReg.ToolResult) :
    ∀ (fuel : Nat) (msgs : List ChatMsg) (conv : Option (Conversation Args))
      (trips tc : Nat),
      (∀ i, trips ≤ i → i < trips + fuel →
        ∃ am, provider i = .assistant am ∧ am.tool_calls ≠ []) →
      (executeGo provider parseJson emptyArgs executor fuel msgs conv trips tc).reply =
          maxIterationsMessage ∧
      (executeGo provider parseJson emptyArgs executor fuel msgs conv trips tc).conversation.map
          (fun c => c.messages) =
        conv.map (fun c => c.messages ++ [{ role := "assistant", content := maxIterationsMessage }]) := by
  intro fuel
  induction fuel with
  | zero =>
      intro msgs conv trips tc _
      refine ⟨rfl, ?_⟩
      cases conv <;> simp [executeGo, addAssistantMessage]
  | succ n ih =>
      intro msgs conv trips tc h
      obtain ⟨am, hp, hne⟩ := h trips (le_refl _) (by omega)
      have he : am.tool_calls.isEmpty = false := by
        cases h' : am.tool_calls.isEmpty
        · rfl
        · rw [List.isEmpty_iff] at h'
          exact absurd h' hne
      simp only [executeGo, hp, he, Bool.false_eq_true, if_false]
      have ih' := ih (msgs ++ [ChatMsg.assistantTurn am] ++
          ((executeToolCalls parseJson emptyArgs executor conv am.tool_calls).1).map ChatMsg.toolResult)
        (executeToolCalls parseJson emptyArgs executor conv am.tool_calls).2.1
        (trips + 1)
        (tc + (executeToolCalls parseJson emptyArgs executor conv am.tool_calls).2.2)
        (fun i h1 h2 => h i (by omega) (by omega))
      refine ⟨ih'.1, ?_⟩
      rw [ih'.2, executeToolCalls_eq]
      cases conv <;> simp

end Lemmas

end Agent

/-- C1.  `KimiExecutor.execute` never performs more provider round trips
than `max_tool_iterations`; and if every one of those rounds answers with
tool calls (so the cap is reached before a no-tool-call response), the
loop stops, appends the fixed fallback message as an assistant message to
the conversation store, and returns that message. -/
theorem c1_iteration_cap {Args : Type} (limitError : Option String)
    (provider : Nat → Agent.ProviderResponse)
    (parseJson : String → Option Args) (emptyArgs : Args)
    (executor : String → Args → ToolReg.ToolResult)
    (initMessages : List Agent.ChatMsg) (user_message : String) (images : List String)
    (conv : Option (Agent.Conversation Args)) (max_tool_iterations : Nat) :
    (Agent.execute limitError provider parseJson emptyArgs executor initMessages
        user_message images conv max_tool_iterations).trips ≤ max_tool_iterations ∧
    (limitError = Option.none →
      ∀ c, conv = Option.some c →
      (∀ i, i < max_tool_iterations →
        ∃ am, provider i = .assistant am ∧ am.tool_calls ≠ []) →
      (Agent.execute limitError provider parseJson emptyArgs executor initMessages
          user_message images conv max_tool_iterations).reply =
        Agent.maxIterationsMessage ∧
      (Agent.execute limitError provider parseJson emptyArgs executor initMessages
          user_message images conv max_tool_iterations).conversation.map
          (fun cv => cv.messages) =
        Option.some (c.messages ++
          [{ role := "user", content := user_message, images := images },
           { role := "assistant", content := Agent.maxIterationsMessage }])) := by
  constructor
  · cases limitError with
    | some e => simp [Agent.execute]
    | none =>
        simpa [Agent.execute] using
          Agent.Lemmas.executeGo_trips_le provider parseJson emptyArgs executor
            max_tool_iterations initMessages
            (conv.map (Agent.addUserMessage user_message images)) 0 0
  · rintro rfl c rfl h
    have := Agent.Lemmas.executeGo_max_iterations provider parseJson emptyArgs executor
      max_tool_iterations initMessages
      (Option.some (Agent.addUserMessage user_message images c)) 0 0
      (fun i h1 h2 => h i (by omega))
    refine ⟨this.1, ?_⟩
    rw [show (Agent.execute Option.none provider parseJson emptyArgs executor initMessages
          user_message images (Option.some c) max_tool_iterations) =
        Agent.executeGo provider parseJson emptyArgs executor max_tool_iterations
          initMessages (Option.some (Agent.addUserMessage user_message images c)) 0 0 from rfl,
      this.2]
    simp [Agent.addUserMessage]

/-- C1, witness for `c1_iteration_cap`: a provider that requests a tool
call on every round, a 2-iteration cap, and an initially empty
conversation. -/
theorem c1_iteration_cap_witness :
    (Agent.execute Option.none
        (fun _ => .assistant { content := "", tool_calls := [{ id := "call_1", name := "shell_command", arguments := "\x7b\x7d" }] })
        (fun _ => (Option.none : Option Unit)) () (fun _ _ => { success := true, output := "ok" })
        [] "hi" [] (Option.some { messages := [], tool_executions := [] }) 2).trips ≤ 2 ∧
    (Agent.execute Option.none
        (fun _ => .assistant { content := "", tool_calls := [{ id := "call_1", name := "shell_command", arguments := "\x7b\x7d" }] })
        (fun _ => (Option.none : Option Unit)) () (fun _ _ => { success := true, output := "ok" })
        [] "hi" [] (Option.some { messages := [], tool_executions := [] }) 2).reply =
      Agent.maxIterationsMessage := by
  have h := c1_iteration_cap Option.none
    (fun _ => .assistant { content := "", tool_calls := [{ id := "call_1", name := "shell_command", arguments := "\x7b\x7d" }] })
    (fun _ => (Option.none : Option Unit)) () (fun _ _ => { success := true, output := "ok" })
    [] "hi" [] (Option.some { messages := [], tool_executions := [] }) 2
  exact ⟨h.1, (h.2 rfl _ rfl (fun i _ => ⟨_, rfl, by simp⟩)).1⟩

/-- C9.  For every model-issued tool call whose arguments blob fails JSON
parsing, `_execute_tool_calls` neither fails nor skips the call: position
`k` of the result list is a tool message carrying the original call id,
whose content comes from executing the named tool with the empty argument
map; every call in the batch is executed (the count equals the batch
size), and the conversation's tool-execution log records the call with the
empty argument map. -/
theorem c9_invalid_json_empty_args {Args : Type} (parseJson : String → Option Args)
    (emptyArgs : Args) (executor : String → Args → ToolReg.ToolResult)
    (c : Agent.Conversation Args) (calls : List Agent.ToolCallReq)
    (k : Nat) (hk : k < calls.length)
    (h : parseJson calls[k].arguments = Option.none) :
    (Agent.executeToolCalls parseJson emptyArgs executor (Option.some c) calls).1[k]? =
      Option.some
        { tool_call_id := calls[k].id, role := "tool",
          content := Agent.fmtToolContent
            ((executor calls[k].name emptyArgs).output) } ∧
    (Agent.executeToolCalls parseJson emptyArgs executor (Option.some c) calls).2.2 =
      calls.length ∧
    ∃ cv, (Agent.executeToolCalls parseJson emptyArgs executor (Option.some c) calls).2.1 =
        Option.some cv ∧
      cv.tool_executions[c.tool_executions.length + k]? =
        Option.some
          { tool_name := calls[k].name, input_args := emptyArgs,
            result := executor calls[k].name emptyArgs,
            success := (executor calls[k].name emptyArgs).success } := by
  rw [Agent.Lemmas.executeToolCalls_eq]
  refine ⟨?_, ?_, ?_⟩
  · simp [List.getElem?_map, List.getElem?_eq_getElem hk,
      Agent.toolCallMessage, Agent.toolCallArgs, h]
  · rfl
  · refine ⟨_, rfl, ?_⟩
    simp [List.getElem?_append_right (Nat.le_add_right _ _), List.getElem?_map,
      List.getElem?_eq_getElem hk, Agent.toolCallRecord, Agent.toolCallArgs, h]

/-- C9, witness for `c9_invalid_json_empty_args` on a single call whose
arguments blob is rejected by the parser. -/
theorem c9_invalid_json_empty_args_witness :
    (Agent.executeToolCalls (fun _ => (Option.none : Option Unit)) ()
        (fun _ _ => { success := true, output := "ok" })
        (Option.some { messages := [], tool_executions := [] })
        [{ id := "call_7", name := "read_file", arguments := "not json" }]).1[0]? =
      Option.some { tool_call_id := "call_7", role := "tool", content := "ok" } := by
  have h := c9_invalid_json_empty_args (fun _ => (Option.none : Option Unit)) ()
    (fun _ _ => { success := true, output := "ok" })
    { messages := [], tool_executions := [] }
    [{ id := "call_7", name := "read_file", arguments := "not json" }]
    0 (by simp) rfl
  simpa [Agent.fmtToolContent] using h.1

/-- C4.  For every tool name not present in the registry,
`execute_tool_sync` returns `success = false` with an output that lists
all currently registered tool names (joined exactly as
`', '.join(self.functions.keys())` does); being a total function of its
inputs, it returns this structured result rather than raising. -/
theorem c4_unknown_tool_lists_names {Args : Type} (ex : ToolReg.ToolExecutorModel Args)
    (tool_name : String) (kwargs : Args)
    (h : ex.functions.lookup tool_name = Option.none) :
    ToolReg.execute_tool_sync ex tool_name kwargs =
      { success := false,
        output := "Tool '" ++ tool_name ++ "' not found. Available tools: " ++
          String.intercalate ", " (ex.functions.map Prod.fst),
        platform := Option.none } := by
  simp [ToolReg.execute_tool_sync, h]

/-- C4, witness for `c4_unknown_tool_lists_names` on a concrete two-tool
registry and an unregistered name. -/
theorem c4_unknown_tool_lists_names_witness :
    ToolReg.execute_tool_sync
        { functions := [("read_file", fun (_ : Unit) => .returnsDict true "ok"),
                        ("shell_command", fun _ => .returnsDict true "ok")],
          platform := "linux" } "frobnicate" () =
      { success := false,
        output := "Tool 'frobnicate' not found. Available tools: read_file, shell_command",
        platform := Option.none } :=
  c4_unknown_tool_lists_names _ "frobnicate" () rfl

namespace FileOps

/-- The slice of the file system state `read_file` observes: whether the
resolved path exists, its `stat().st_size`, and the text
`_extract_content_to_text` produces for it (the per-format extractors —
plain text, PDF, DOCX, Excel — are external collaborators; the model
works with the extracted text directly). -/
structure FileModel where
  present : Bool
  size : Nat
  content : String
deriving Repr, DecidableEq

/-- The `_context` dictionary built by `ToolExecutor.set_token_context`
(the fields `read_file` reads). -/
structure TokenCtx where
  current_tokens : Nat
  max_tokens : Nat
  available_tokens : Nat
deriving Repr, DecidableEq

/-- Python list slicing `l[s:e]` (no step): negative indices count from
the end, and both bounds are clamped to `[0, len(l)]`. -/
def pySlice {α : Type} (l : List α) (s e : Int) : List α :=
  let n : Int := l.length
  let s' : Int := if s < 0 then max 0 (n + s) else min s n
  let e' : Int := if e < 0 then max 0 (n + e) else min e n
  (l.take e'.toNat).drop s'.toNat

/-- Python `str.split` with a one-character separator: split at every
occurrence, keeping empty pieces (`''.split('\n') == ['']`). -/
def splitLines : List Char → List (List Char)
  | [] => [[]]
  | c :: cs =>
      if c = '\n' then [] :: splitLines cs
      else
        match splitLines cs with
        | [] => [[c]]
        | l :: ls => (c :: l) :: ls

/-- `content.split('\n')`. -/
def linesOf (content : String) : List String :=
  (splitLines content.toList).map (fun l => String.mk l)

/-- `start_pos = 0 if start_line is None else max(0, start_line - 1)`. -/
def startPos (start_line : Option Int) : Nat :=
  match start_line with
  | Option.none => 0
  | Option.some sl => (max 0 (sl - 1)).toNat

/-- The windowing decision of `read_file` (its `end_pos` / `truncated` /
continuation-hint computation).  Token counts use the character-estimate
fallback `len(content) // 4` (the `tiktoken` import is an optional
external dependency), and the float expressions
`int(available_tokens * 0.6)`, `int(target_tokens / tokens_per_line)` and
`int(safe_lines * tokens_per_line)` are modelled in exact integer
arithmetic; no claim depends on the exact values.  The
`except`-fallback around token counting (a `tiktoken` failure) cannot
fire in the model and is omitted.  In the truncating branch
`actual_tokens > threshold ≥ 0`, so the float division by
`tokens_per_line` is division by a positive quantity. -/
structure WindowPlan where
  end_pos : Int
  truncated : Bool
  continuation : Option (Nat × Nat)
  hint : String
deriving Repr, DecidableEq

/-- `threshold`: the context's `available_tokens` or the static 15000. -/
def autoThreshold (ctx : Option TokenCtx) : Nat :=
  match ctx with
  | Option.some c => c.available_tokens
  | Option.none => 15000

/-- `target_tokens`: 60 % of the available budget capped by the actual
token count, or the static 10000. -/
def autoTarget (ctx : Option TokenCtx) (actual_tokens : Nat) : Nat :=
  match ctx with
  | Option.some c => min (c.available_tokens * 6 / 10) actual_tokens
  | Option.none => 10000

/-- `safe_lines = max(100, int(target_tokens / tokens_per_line))` with
`tokens_per_line = actual_tokens / total_lines if total_lines > 0 else 1`. -/
def safeLines (total_lines actual_tokens target_tokens : Nat) : Nat :=
  max 100 (if 0 < total_lines then target_tokens * total_lines / actual_tokens
           else target_tokens)

def computeWindow (file_path : String) (total_lines actual_tokens : Nat)
    (start_pos : Nat) (limit_lines : Option Int) (auto_truncate : Bool)
    (ctx : Option TokenCtx) : WindowPlan :=
  if auto_truncate = true ∧ limit_lines = Option.none then
    if autoThreshold ctx < actual_tokens then
      { end_pos :=
          (min (start_pos + safeLines total_lines actual_tokens (autoTarget ctx actual_tokens)) total_lines : Nat),
        truncated := true,
        continuation := Option.some
          (min (start_pos + safeLines total_lines actual_tokens (autoTarget ctx actual_tokens)) total_lines + 1,
           safeLines total_lines actual_tokens (autoTarget ctx actual_tokens)),
        hint := s!"\n\n📄 Document truncated - showing lines {start_pos + 1}-{min (start_pos + safeLines total_lines actual_tokens (autoTarget ctx actual_tokens)) total_lines} of {total_lines}.\nActual tokens: {actual_tokens} → truncated to ~{safeLines total_lines actual_tokens (autoTarget ctx actual_tokens) * actual_tokens / total_lines} tokens.\nTo read more: read_file('{file_path}', start_line={min (start_pos + safeLines total_lines actual_tokens (autoTarget ctx actual_tokens)) total_lines + 1}, limit_lines={safeLines total_lines actual_tokens (autoTarget ctx actual_tokens)})" }
    else
      { end_pos := total_lines, truncated := false, continuation := Option.none, hint := "" }
  else
    match limit_lines with
    | Option.none =>
        { end_pos := total_lines, truncated := false, continuation := Option.none, hint := "" }
    | Option.some ll =>
        { end_pos := min ((start_pos : Int) + ll) (total_lines : Int),
          truncated := false, continuation := Option.none, hint := "" }

/-- The structured result dictionary of `read_file`.  The `line_range`
string `f"{start_pos + 1}-{end_pos}"` is modelled by the numeric pair
(`range_start`, `range_end`); `file_type` (extension sniffing) is not
modelled since extraction is abstracted into `FileModel.content`. -/
structure ReadResult where
  success : Bool
  output : String
  content : String := ""
  lines_shown : Nat := 0
  total_lines : Nat := 0
  range_start : Nat := 0
  range_end : Int := 0
  truncated : Bool := false
  file_size : Nat := 0
  continuation : Option (Nat × Nat) := Option.none
deriving Repr, DecidableEq

/-- The pagination-and-format stage of `read_file` (everything after the
existence and size checks): reject content that strips to empty, then
split into lines, compute the window, slice, and assemble the result
(with the token-usage transparency block when a `_context` is present). -/
def readFileContent (file : FileModel) (file_path : String)
    (start_line limit_lines : Option Int) (auto_truncate : Bool)
    (ctx : Option TokenCtx) : ReadResult :=
  -- `if not content.strip()`: Python's default strip removes whitespace,
  -- so the stripped string is empty iff every character is whitespace.
  if file.content.toList.all Char.isWhitespace then
    { success := false,
      output := s!"❌ No content extracted from '{file_path}' - file may be empty or unsupported format" }
  else
    let lines := linesOf file.content
    let total_lines := lines.length
    let start_pos := startPos start_line
    let actual_tokens := file.content.length / 4
    let w := computeWindow file_path total_lines actual_tokens start_pos
      limit_lines auto_truncate ctx
    let selected := pySlice lines (start_pos : Int) w.end_pos
    let result_content := String.intercalate "\n" selected
    let final_tokens := result_content.length / 4
    let usage : String := match ctx with
      | Option.some c =>
          s!"\n\n🧠 Token Usage:\n• File content: {final_tokens} tokens\n• Context used: {c.current_tokens} / {c.max_tokens} tokens\n• Available space: {c.available_tokens} tokens remaining\n" ++
            (if w.truncated then "• ⚠️  Content truncated to fit available space" else "")
      | Option.none => ""
    { success := true,
      output := s!"📄 {file_path} (lines {start_pos + 1}-{w.end_pos} of {total_lines}):\n{result_content}" ++ w.hint ++ usage,
      content := result_content,
      lines_shown := selected.length,
      total_lines := total_lines,
      range_start := start_pos + 1,
      range_end := w.end_pos,
      truncated := w.truncated,
      file_size := file.size,
      continuation := w.continuation }

/-- `read_file` from `file_ops.py`: existence check, the 10 MiB size
gate, then content extraction and windowing. -/
def read_file (file : FileModel) (file_path : String)
    (start_line limit_lines : Option Int := Option.none)
    (auto_truncate : Bool := true) (ctx : Option TokenCtx := Option.none) :
    ReadResult :=
  if file.present = false then
    { success := false,
      output := s!"❌ File not found: '{file_path}' - check if the file exists or path is correct" }
  else if file.size > 10 * 1024 * 1024 then
    { success := false,
      output := s!"❌ File too large: '{file_path}' ({file.size / (1024 * 1024)}MB) - files over 10MB not supported" }
  else
    readFileContent file file_path start_line limit_lines auto_truncate ctx

/-- The window sequence a caller traverses when it follows the
continuation hint and keeps re-reading with the hinted window size `w`
held constant: from 0-indexed position `s`, the next hinted read covers
1-indexed lines `s+1 .. min(s+w, L)`.  (`fuel` bounds the recursion; any
`fuel ≥ L - s` gives the full sequence.) -/
def followWindowsF (L w : Nat) : Nat → Nat → List (Nat × Nat)
  | 0, _ => []
  | fuel + 1, s =>
      if s < L ∧ 0 < w then
        (s + 1, min (s + w) L) :: followWindowsF L w fuel (min (s + w) L)
      else []

def followWindows (L w s : Nat) : List (Nat × Nat) := followWindowsF L w (L - s) s

/-- The 1-indexed line numbers a list of windows covers, in order. -/
def windowsCover (ws : List (Nat × Nat)) : List Nat :=
  ws.flatMap (fun p => List.range' p.1 (p.2 + 1 - p.1))

namespace Lemmas

theorem splitLines_ne_nil : ∀ l : List Char, splitLines l ≠ [] := by
  intro l
  induction l with
  | nil => simp [splitLines]
  | cons c cs ih =>
      by_cases hc : c = '\n'
      · simp [splitLines, hc]
      · simp only [splitLines, hc, if_false]
        cases h : splitLines cs <;> simp

theorem linesOf_length_pos (content : String) : 0 < (linesOf content).length := by
  have h := splitLines_ne_nil content.toList
  simpa [linesOf] using List.length_pos.mpr h

theorem pySlice_length {α : Type} (l : List α) (s e : Int) (hs : 0 ≤ s)
    (hse : s ≤ e) (he : e ≤ (l.length : Int)) :
    (pySlice l s e).length = (e - s).toNat := by
  unfold pySlice
  have h1 : ¬ s < 0 := by omega
  have h2 : ¬ e < 0 := by omega
  simp only [h1, h2, if_false]
  simp only [List.length_drop, List.length_take]
  omega

theorem safeLines_pos (total actual target : Nat) :
    100 ≤ safeLines total actual target :=
  le_max_left _ _

theorem computeWindow_bounds (fp : String) (total actual start : Nat)
    (ll : Option Int) (autot : Bool) (ctx : Option TokenCtx)
    (hstart : start < total) (hll : ∀ l, ll = Option.some l → 1 ≤ l) :
    (start : Int) < (computeWindow fp total actual start ll autot ctx).end_pos ∧
    (computeWindow fp total actual start ll autot ctx).end_pos ≤ (total : Int) := by
  unfold computeWindow
  by_cases h1 : autot = true ∧ ll = Option.none
  · rw [if_pos h1]
    by_cases h2 : autoThreshold ctx < actual
    · rw [if_pos h2]
      have h100 := safeLines_pos total actual (autoTarget ctx actual)
      constructor <;> simp only [] <;> push_cast <;> omega
    · rw [if_neg h2]
      constructor <;> simp only [] <;> omega
  · rw [if_neg h1]
    cases ll with
    | none => constructor <;> simp only [] <;> omega
    | some l =>
        have hl := hll l rfl
        constructor <;> simp only [] <;> omega

theorem readFileContent_success (file : FileModel) (file_path : String)
    (sl ll : Option Int) (autot : Bool) (ctx : Option TokenCtx)
    (h : (file.content.toList.all Char.isWhitespace) = false) :
    (readFileContent file file_path sl ll autot ctx).success = true := by
  rw [readFileContent, if_neg (show ¬ _ = true by rw [h]; simp)]

theorem readFileContent_total_lines (file : FileModel) (file_path : String)
    (sl ll : Option Int) (autot : Bool) (ctx : Option TokenCtx)
    (h : (file.content.toList.all Char.isWhitespace) = false) :
    (readFileContent file file_path sl ll autot ctx).total_lines =
      (linesOf file.content).length := by
  rw [readFileContent, if_neg (show ¬ _ = true by rw [h]; simp)]

theorem readFileContent_range_start (file : FileModel) (file_path : String)
    (sl ll : Option Int) (autot : Bool) (ctx : Option TokenCtx)
    (h : (file.content.toList.all Char.isWhitespace) = false) :
    (readFileContent file file_path sl ll autot ctx).range_start =
      startPos sl + 1 := by
  rw [readFileContent, if_neg (show ¬ _ = true by rw [h]; simp)]

theorem readFileContent_range_end (file : FileModel) (file_path : String)
    (sl ll : Option Int) (autot : Bool) (ctx : Option TokenCtx)
    (h : (file.content.toList.all Char.isWhitespace) = false) :
    (readFileContent file file_path sl ll autot ctx).range_end =
      (computeWindow file_path (linesOf file.content).length
        (file.content.length / 4) (startPos sl) ll autot ctx).end_pos := by
  rw [readFileContent, if_neg (show ¬ _ = true by rw [h]; simp)]

theorem readFileContent_lines_shown (file : FileModel) (file_path : String)
    (sl ll : Option Int) (autot : Bool) (ctx : Option TokenCtx)
    (h : (file.content.toList.all Char.isWhitespace) = false) :
    (readFileContent file file_path sl ll autot ctx).lines_shown =
      (pySlice (linesOf file.content) (startPos sl : Int)
        (computeWindow file_path (linesOf file.content).length
          (file.content.length / 4) (startPos sl) ll autot ctx).end_pos).length := by
  rw [readFileContent, if_neg (show ¬ _ = true by rw [h]; simp)]

theorem readFileContent_truncated (file : FileModel) (file_path : String)
    (sl ll : Option Int) (autot : Bool) (ctx : Option TokenCtx)
    (h : (file.content.toList.all Char.isWhitespace) = false) :
    (readFileContent file file_path sl ll autot ctx).truncated =
      (computeWindow file_path (linesOf file.content).length
        (file.content.length / 4) (startPos sl) ll autot ctx).truncated := by
  rw [readFileContent, if_neg (show ¬ _ = true by rw [h]; simp)]

theorem readFileContent_continuation (file : FileModel) (file_path : String)
    (sl ll : Option Int) (autot : Bool) (ctx : Option TokenCtx)
    (h : (file.content.toList.all Char.isWhitespace) = false) :
    (readFileContent file file_path sl ll autot ctx).continuation =
      (computeWindow file_path (linesOf file.content).length
        (file.content.length / 4) (startPos sl) ll autot ctx).continuation := by
  rw [readFileContent, if_neg (show ¬ _ = true by rw [h]; simp)]

/-- When the file exists and passes the size gate, `read_file` is the
windowing stage, for any windowing arguments. -/
theorem read_file_eq_content (file : FileModel) (hp : ¬ file.present = false)
    (hsz : ¬ file.size > 10 * 1024 * 1024) (file_path : String)
    (sl ll : Option Int) (autot : Bool) (ctx : Option TokenCtx) :
    read_file file file_path sl ll autot ctx =
      readFileContent file file_path sl ll autot ctx := by
  rw [read_file, if_neg hp, if_neg hsz]

/-- A successful `read_file` forces its way through all three guard
branches: the file exists, is within the size gate, and has
non-whitespace content — and the result is the windowing stage's. -/
theorem read_file_success_shape (file : FileModel) (file_path : String)
    (sl ll : Option Int) (autot : Bool) (ctx : Option TokenCtx)
    (hs : (read_file file file_path sl ll autot ctx).success = true) :
    ¬ file.present = false ∧ ¬ file.size > 10 * 1024 * 1024 ∧
    (file.content.toList.all Char.isWhitespace) = false ∧
    read_file file file_path sl ll autot ctx =
      readFileContent file file_path sl ll autot ctx := by
  by_cases hp : file.present = false
  · rw [read_file, if_pos hp] at hs
    simp at hs
  · by_cases hsz : file.size > 10 * 1024 * 1024
    · rw [read_file, if_neg hp, if_pos hsz] at hs
      simp at hs
    · have hrw := read_file_eq_content file hp hsz file_path sl ll autot ctx
      rw [hrw] at hs
      by_cases hb : (file.content.toList.all Char.isWhitespace) = true
      · rw [readFileContent, if_pos hb] at hs
        simp at hs
      · exact ⟨hp, hsz, by simpa using hb, hrw⟩

/-- Every window produced by following continuation hints starts right
after a 0-indexed position `t < L` and ends at `min (t + w) L`. -/
theorem followWindowsF_mem (L w : Nat) :
    ∀ (fuel s : Nat) (p : Nat × Nat), p ∈ followWindowsF L w fuel s →
      ∃ t, t < L ∧ p = (t + 1, min (t + w) L) := by
  intro fuel
  induction fuel with
  | zero => intro s p hp; simp [followWindowsF] at hp
  | succ n ih =>
      intro s p hp
      by_cases hc : s < L ∧ 0 < w
      · rw [followWindowsF, if_pos hc] at hp
        rcases List.mem_cons.mp hp with h | h
        · exact ⟨s, hc.1, h⟩
        · exact ih _ p h
      · rw [followWindowsF, if_neg hc] at hp
        simp at hp

/-- The hint-following windows starting at 0-indexed position `s` cover
exactly the 1-indexed lines `s+1 .. L`, in order and without
repetition. -/
theorem windowsCover_followWindowsF (L w : Nat) (hw : 0 < w) :
    ∀ (fuel s : Nat), L - s ≤ fuel →
      windowsCover (followWindowsF L w fuel s) = List.range' (s + 1) (L - s) := by
  intro fuel
  induction fuel with
  | zero =>
      intro s hfuel
      have : L - s = 0 := by omega
      simp [followWindowsF, windowsCover, this]
  | succ n ih =>
      intro s hfuel
      by_cases hc : s < L ∧ 0 < w
      · rw [followWindowsF, if_pos hc]
        have hs' : s < L := hc.1
        have hle : s + 1 ≤ min (s + w) L := by omega
        have hrest := ih (min (s + w) L) (by omega)
        simp only [windowsCover, List.flatMap_cons] at *
        rw [hrest]
        rw [show min (s + w) L + 1 - (s + 1) = min (s + w) L - s from by omega]
        rw [show min (s + w) L + 1 = (s + 1) + (min (s + w) L - s) from by omega]
        rw [List.range'_append_1]
        rw [show L - min (s + w) L + (min (s + w) L - s) = L - s from by omega]
      · rw [followWindowsF, if_neg hc]
        have : L - s = 0 := by omega
        simp [windowsCover, this]

/-- The result of a hint-following re-read with an explicit window:
`read_file(path, start_line = t+1, limit_lines = w)` succeeds and reports
exactly the window `t+1 .. min(t+w, L)`. -/
theorem read_follow_window (file : FileModel) (file_path : String)
    (ctx : Option TokenCtx) (w t : Nat) (hp : ¬ file.present = false)
    (hsz : ¬ file.size > 10 * 1024 * 1024)
    (hb : (file.content.toList.all Char.isWhitespace) = false) :
    (read_file file file_path (Option.some ((t + 1 : Nat) : Int))
        (Option.some (w : Int)) true ctx).success = true ∧
    (read_file file file_path (Option.some ((t + 1 : Nat) : Int))
        (Option.some (w : Int)) true ctx).range_start = t + 1 ∧
    (read_file file file_path (Option.some ((t + 1 : Nat) : Int))
        (Option.some (w : Int)) true ctx).range_end =
      ((min (t + w) (linesOf file.content).length : Nat) : Int) := by
  rw [read_file_eq_content file hp hsz file_path _ _ true ctx]
  refine ⟨readFileContent_success _ _ _ _ _ _ hb, ?_, ?_⟩
  · rw [readFileContent_range_start _ _ _ _ _ _ hb]
    simp only [startPos]
    omega
  · rw [readFileContent_range_end _ _ _ _ _ _ hb]
    rw [computeWindow, if_neg (by simp)]
    simp only [startPos]
    push_cast
    omega

end Lemmas

end FileOps

/-- C10.  For a file that exists, `read_file` rejects any size strictly
above 10 MiB (`10 * 1024 * 1024` bytes) with a `success=False` "File too
large" result that contains none of the file's content, before any
extraction; a file at or under that size proceeds to the content
extraction and windowing stage. -/
theorem c10_size_gate (file : FileOps.FileModel) (path : String)
    (sl ll : Option Int) (autot : Bool) (ctx : Option FileOps.TokenCtx)
    (hp : file.present = true) :
    (10 * 1024 * 1024 < file.size →
      FileOps.read_file file path sl ll autot ctx =
        { success := false,
          output := s!"❌ File too large: '{path}' ({file.size / (1024 * 1024)}MB) - files over 10MB not supported" }) ∧
    (file.size ≤ 10 * 1024 * 1024 →
      FileOps.read_file file path sl ll autot ctx =
        FileOps.readFileContent file path sl ll autot ctx) := by
  constructor <;> intro h <;> simp [FileOps.read_file, hp] <;> omega

/-- C10, witness for `c10_size_gate`: an 11 MiB file is rejected, and a
3-byte file of the same shape proceeds to extraction. -/
theorem c10_size_gate_witness :
    FileOps.read_file { present := true, size := 11 * 1024 * 1024, content := "hi" }
        "big.bin" Option.none Option.none true Option.none =
      { success := false,
        output := "❌ File too large: 'big.bin' (11MB) - files over 10MB not supported" } ∧
    FileOps.read_file { present := true, size := 2, content := "hi" }
        "hi.txt" Option.none Option.none true Option.none =
      FileOps.readFileContent { present := true, size := 2, content := "hi" }
        "hi.txt" Option.none Option.none true Option.none := by
  constructor
  · exact (c10_size_gate _ "big.bin" _ _ _ _ rfl).1 (by norm_num)
  · exact (c10_size_gate _ "hi.txt" _ _ _ _ rfl).2 (by norm_num)

/-- C5, counterexample.  Reading the non-empty 3-line document
`"a\nb\nc"` with `start_line = 5` succeeds (`success=True`) yet reports
the line range 5–3 (so `startLine ≤ endLine ≤ totalLines` fails) and
returns an empty slice even though the source document is non-empty:
`read_file` never clamps `start_line` to the document length. -/
theorem c5_counterexample :
    (FileOps.read_file { present := true, size := 5, content := "a\nb\nc" } "f.txt"
        (Option.some 5) Option.none true Option.none).success = true ∧
    (FileOps.read_file { present := true, size := 5, content := "a\nb\nc" } "f.txt"
        (Option.some 5) Option.none true Option.none).total_lines = 3 ∧
    (FileOps.read_file { present := true, size := 5, content := "a\nb\nc" } "f.txt"
        (Option.some 5) Option.none true Option.none).range_start = 5 ∧
    (FileOps.read_file { present := true, size := 5, content := "a\nb\nc" } "f.txt"
        (Option.some 5) Option.none true Option.none).range_end = 3 ∧
    (FileOps.read_file { present := true, size := 5, content := "a\nb\nc" } "f.txt"
        (Option.some 5) Option.none true Option.none).lines_shown = 0 := by
  decide

/-- C5, amended.  For every successful windowed read whose requested
`start_line` (when given) does not exceed the document's line count and
whose `limit_lines` (when given) is at least 1, the reported range
satisfies `1 ≤ startLine ≤ endLine ≤ totalLines` and the returned slice
is non-empty (an empty-stripping source is rejected with `success=False`
before windowing, so a successful read never comes from an empty
document). -/
theorem c5_window_bounds (file : FileOps.FileModel) (path : String)
    (sl ll : Option Int) (autot : Bool) (ctx : Option FileOps.TokenCtx)
    (hs : (FileOps.read_file file path sl ll autot ctx).success = true)
    (hsl : ∀ s, sl = Option.some s →
      s ≤ ((FileOps.read_file file path sl ll autot ctx).total_lines : Int))
    (hll : ∀ l, ll = Option.some l → 1 ≤ l) :
    1 ≤ (FileOps.read_file file path sl ll autot ctx).range_start ∧
    ((FileOps.read_file file path sl ll autot ctx).range_start : Int) ≤
      (FileOps.read_file file path sl ll autot ctx).range_end ∧
    (FileOps.read_file file path sl ll autot ctx).range_end ≤
      ((FileOps.read_file file path sl ll autot ctx).total_lines : Int) ∧
    0 < (FileOps.read_file file path sl ll autot ctx).lines_shown := by
  obtain ⟨-, -, hb, hrw⟩ := FileOps.Lemmas.read_file_success_shape file path sl ll autot ctx hs
  rw [hrw] at hsl ⊢
  rw [FileOps.Lemmas.readFileContent_total_lines file path sl ll autot ctx hb] at hsl
  rw [FileOps.Lemmas.readFileContent_range_start file path sl ll autot ctx hb,
    FileOps.Lemmas.readFileContent_range_end file path sl ll autot ctx hb,
    FileOps.Lemmas.readFileContent_total_lines file path sl ll autot ctx hb,
    FileOps.Lemmas.readFileContent_lines_shown file path sl ll autot ctx hb]
  have htotal : 0 < (FileOps.linesOf file.content).length :=
    FileOps.Lemmas.linesOf_length_pos file.content
  have hstart : FileOps.startPos sl < (FileOps.linesOf file.content).length := by
    cases sl with
    | none => simpa [FileOps.startPos] using htotal
    | some s =>
        have := hsl s rfl
        simp only [FileOps.startPos]
        omega
  have hw := FileOps.Lemmas.computeWindow_bounds path
    (FileOps.linesOf file.content).length (file.content.length / 4)
    (FileOps.startPos sl) ll autot ctx hstart hll
  have hlen := FileOps.Lemmas.pySlice_length (FileOps.linesOf file.content)
    (FileOps.startPos sl)
    (FileOps.computeWindow path (FileOps.linesOf file.content).length
      (file.content.length / 4) (FileOps.startPos sl) ll autot ctx).end_pos
    (by positivity) (by omega) (by omega)
  refine ⟨by omega, by push_cast; omega, by omega, ?_⟩
  rw [hlen]
  omega

/-- C5, witness for `c5_window_bounds`: reading line 2 of the 3-line
document with `limit_lines = 1` reports the valid range 2–2 and a 1-line
slice. -/
theorem c5_window_bounds_witness :
    1 ≤ (FileOps.read_file { present := true, size := 5, content := "a\nb\nc" } "f.txt"
        (Option.some 2) (Option.some 1) true Option.none).range_start ∧
    ((FileOps.read_file { present := true, size := 5, content := "a\nb\nc" } "f.txt"
        (Option.some 2) (Option.some 1) true Option.none).range_start : Int) ≤
      (FileOps.read_file { present := true, size := 5, content := "a\nb\nc" } "f.txt"
        (Option.some 2) (Option.some 1) true Option.none).range_end ∧
    (FileOps.read_file { present := true, size := 5, content := "a\nb\nc" } "f.txt"
        (Option.some 2) (Option.some 1) true Option.none).range_end ≤
      ((FileOps.read_file { present := true, size := 5, content := "a\nb\nc" } "f.txt"
        (Option.some 2) (Option.some 1) true Option.none).total_lines : Int) ∧
    0 < (FileOps.read_file { present := true, size := 5, content := "a\nb\nc" } "f.txt"
        (Option.some 2) (Option.some 1) true Option.none).lines_shown :=
  c5_window_bounds { present := true, size := 5, content := "a\nb\nc" } "f.txt"
    (Option.some 2) (Option.some 1) true Option.none (by decide)
    (fun s hs => by injection hs with h; subst h; decide)
    (fun l hl => by injection hl with h; subst h; decide)

/-- C6.  For a document whose first (auto-truncated) read is truncated,
repeatedly re-reading with the start line and window size of the returned
continuation hint (`start_line = end_pos + 1`, `limit_lines =
safe_lines`), holding the window size constant, produces windows that
cover lines `1..L` with no gaps and no duplicated lines: the first read
reports lines `1 .. s-1`, each follow-up read reports exactly its
window's line range, and the concatenated coverage is precisely the list
`[1, 2, ..., L]`. -/
theorem c6_continuation_partition (file : FileOps.FileModel) (path : String)
    (ctx : Option FileOps.TokenCtx) (s w : Nat)
    (hs : (FileOps.read_file file path Option.none Option.none true ctx).success = true)
    (ht : (FileOps.read_file file path Option.none Option.none true ctx).truncated = true)
    (hc : (FileOps.read_file file path Option.none Option.none true ctx).continuation =
      Option.some (s, w)) :
    ((FileOps.read_file file path Option.none Option.none true ctx).range_start = 1 ∧
      (FileOps.read_file file path Option.none Option.none true ctx).range_end =
        ((s - 1 : Nat) : Int)) ∧
    (∀ p ∈ FileOps.followWindows
        (FileOps.read_file file path Option.none Option.none true ctx).total_lines w (s - 1),
      (FileOps.read_file file path (Option.some (p.1 : Int)) (Option.some (w : Int))
          true ctx).success = true ∧
      (FileOps.read_file file path (Option.some (p.1 : Int)) (Option.some (w : Int))
          true ctx).range_start = p.1 ∧
      (FileOps.read_file file path (Option.some (p.1 : Int)) (Option.some (w : Int))
          true ctx).range_end = (p.2 : Int)) ∧
    FileOps.windowsCover ((1, s - 1) ::
        FileOps.followWindows
          (FileOps.read_file file path Option.none Option.none true ctx).total_lines w (s - 1)) =
      List.range' 1 (FileOps.read_file file path Option.none Option.none true ctx).total_lines := by
  obtain ⟨hp, hsz, hb, hrw⟩ := FileOps.Lemmas.read_file_success_shape file path
    Option.none Option.none true ctx hs
  rw [hrw] at ht hc ⊢
  rw [FileOps.Lemmas.readFileContent_truncated _ _ _ _ _ _ hb] at ht
  rw [FileOps.Lemmas.readFileContent_continuation _ _ _ _ _ _ hb] at hc
  rw [FileOps.Lemmas.readFileContent_range_start _ _ _ _ _ _ hb,
    FileOps.Lemmas.readFileContent_range_end _ _ _ _ _ _ hb,
    FileOps.Lemmas.readFileContent_total_lines _ _ _ _ _ _ hb]
  have hsp : FileOps.startPos (Option.none : Option Int) = 0 := rfl
  rw [hsp] at ht hc ⊢
  rw [FileOps.computeWindow, if_pos ⟨rfl, rfl⟩] at ht hc ⊢
  by_cases h2 : FileOps.autoThreshold ctx < file.content.length / 4
  case neg =>
    rw [if_neg h2] at ht
    simp at ht
  case pos =>
  rw [if_pos h2] at ht hc ⊢
  rw [Option.some.injEq, Prod.mk.injEq] at hc
  obtain ⟨hcs, hcw⟩ := hc
  have hL : 0 < (FileOps.linesOf file.content).length :=
    FileOps.Lemmas.linesOf_length_pos file.content
  have hsafe := FileOps.Lemmas.safeLines_pos (FileOps.linesOf file.content).length
    (file.content.length / 4)
    (FileOps.autoTarget ctx (file.content.length / 4))
  have hw0 : 0 < w := by omega
  refine ⟨⟨by omega, ?_⟩, ?_, ?_⟩
  · exact congrArg (fun n : Nat => (n : Int)) (by omega :
      min (0 + FileOps.safeLines (FileOps.linesOf file.content).length
        (file.content.length / 4) (FileOps.autoTarget ctx (file.content.length / 4)))
        (FileOps.linesOf file.content).length = s - 1)
  · intro p hpmem
    rw [FileOps.followWindows] at hpmem
    obtain ⟨t, htL, rfl⟩ := FileOps.Lemmas.followWindowsF_mem
      (FileOps.linesOf file.content).length w _ _ p hpmem
    exact FileOps.Lemmas.read_follow_window file path ctx w t hp hsz hb
  · rw [FileOps.followWindows]
    have hcov := FileOps.Lemmas.windowsCover_followWindowsF
      (FileOps.linesOf file.content).length w hw0
      ((FileOps.linesOf file.content).length - (s - 1)) (s - 1) (le_refl _)
    rw [show FileOps.windowsCover ((1, s - 1) ::
        FileOps.followWindowsF (FileOps.linesOf file.content).length w
          ((FileOps.linesOf file.content).length - (s - 1)) (s - 1)) =
      List.range' 1 ((s - 1) + 1 - 1) ++
        FileOps.windowsCover (FileOps.followWindowsF (FileOps.linesOf file.content).length w
          ((FileOps.linesOf file.content).length - (s - 1)) (s - 1)) from rfl]
    rw [hcov]
    rw [show (s - 1) + 1 - 1 = s - 1 from by omega]
    rw [show (s - 1) + 1 = 1 + (s - 1) from by omega]
    rw [List.range'_append_1]
    rw [show (FileOps.linesOf file.content).length - (s - 1) + (s - 1) =
      (FileOps.linesOf file.content).length from by omega]

set_option maxRecDepth 100000 in
/-- C6, witness for `c6_continuation_partition`: a 150-line document under
a zero-budget context truncates its first read to lines 1–100 with hint
`(101, 100)`; the hint-following windows cover lines 1..150 exactly. -/
theorem c6_continuation_partition_witness :
    FileOps.windowsCover ((1, 101 - 1) ::
        FileOps.followWindows
          (FileOps.read_file
            { present := true, size := 449,
              content := String.intercalate "\n" (List.replicate 150 "ab") }
            "doc.txt" Option.none Option.none true
            (Option.some { current_tokens := 0, max_tokens := 0, available_tokens := 0 })).total_lines
          100 (101 - 1)) =
      List.range' 1
        (FileOps.read_file
          { present := true, size := 449,
            content := String.intercalate "\n" (List.replicate 150 "ab") }
          "doc.txt" Option.none Option.none true
          (Option.some { current_tokens := 0, max_tokens := 0, available_tokens := 0 })).total_lines :=
  (c6_continuation_partition
    { present := true, size := 449,
      content := String.intercalate "\n" (List.replicate 150 "ab") }
    "doc.txt"
    (Option.some { current_tokens := 0, max_tokens := 0, available_tokens := 0 })
    101 100 (by decide) (by decide) (by decide)).2.2

namespace Threads

/-- `ThreadMetadata` from `thread_manager.py`.  `last_message_at` is the
timestamp value the sort key uses (`t.last_message_at.timestamp()`),
modelled as an integer; `created_at` is omitted (no claim observes it). -/
structure ThreadMetadata where
  thread_id : String
  title : String := "New Chat"
  last_message_at : Int
  message_count : Nat := 0
  last_preview : String := ""
  pinned : Bool := false
  thread_type : String := "chat"
deriving Repr, DecidableEq

/-- First component of the Python sort key `(not t.pinned, ...)`:
`False` (pinned) sorts before `True` (unpinned). -/
def pinKey (t : ThreadMetadata) : Nat := if t.pinned then 0 else 1

/-- The ≤ relation of the sort key
`(not t.pinned, -t.last_message_at.timestamp())` compared
lexicographically, as `list.sort` does with tuple keys. -/
def threadLe (a b : ThreadMetadata) : Bool :=
  decide (pinKey a < pinKey b) ||
    (pinKey a == pinKey b && decide (-a.last_message_at ≤ -b.last_message_at))

/-- `ThreadManager.get_thread_list`:
`threads.sort(key=lambda t: (not t.pinned, -t.last_message_at.timestamp()))`.
Python's `list.sort` is a stable ascending sort by the key; `mergeSort` is
the stable sort on the same relation. -/
def get_thread_list (threads : List ThreadMetadata) : List ThreadMetadata :=
  threads.mergeSort threadLe

theorem threadLe_trans (a b c : ThreadMetadata) :
    threadLe a b → threadLe b c → threadLe a c := by
  cases ha : a.pinned <;> cases hb : b.pinned <;> cases hc : c.pinned <;>
    simp [threadLe, pinKey, ha, hb, hc] <;> omega

theorem threadLe_total (a b : ThreadMetadata) : threadLe a b || threadLe b a := by
  cases ha : a.pinned <;> cases hb : b.pinned <;>
    simp [threadLe, pinKey, ha, hb] <;> omega

end Threads

/-- C8.  `get_thread_list` places every pinned thread before every
unpinned thread and, within each group, orders threads by descending
`last_message_at`; on T1(pinned, last=5), T2(unpinned, last=10),
T3(pinned, last=1) it returns [T1, T3, T2]. -/
theorem c8_thread_list_order :
    (∀ ts : List Threads.ThreadMetadata,
      (Threads.get_thread_list ts).Pairwise
        (fun a b => (b.pinned = true → a.pinned = true) ∧
          (a.pinned = b.pinned → b.last_message_at ≤ a.last_message_at))) ∧
    Threads.get_thread_list
        [{ thread_id := "T1", last_message_at := 5, pinned := true },
         { thread_id := "T2", last_message_at := 10, pinned := false },
         { thread_id := "T3", last_message_at := 1, pinned := true }] =
      [{ thread_id := "T1", last_message_at := 5, pinned := true },
       { thread_id := "T3", last_message_at := 1, pinned := true },
       { thread_id := "T2", last_message_at := 10, pinned := false }] := by
  constructor
  · intro ts
    have hs := List.sorted_mergeSort
      (fun a b c => Threads.threadLe_trans a b c) Threads.threadLe_total ts
    refine hs.imp (fun {a b} hab => ?_)
    cases ha : a.pinned <;> cases hb : b.pinned <;>
      simp_all [Threads.threadLe, Threads.pinKey]
  · simp [Threads.get_thread_list, List.mergeSort, Threads.threadLe, Threads.pinKey]

/-- C2, counterexample.  A backend that answers every attempt with a plain
HTTP 401 response object (the only way `httpx.Client.post` delivers a 401,
since `make_request` never calls `raise_for_status`): `make_request`
does return immediately after a single attempt with no retries, but the
message is the generic `"API error: 401"`, which does not mention the API
key at all — the user-actionable wording is produced only in the
`httpx.HTTPStatusError` handler. -/
theorem c2_counterexample :
    Provider.make_request (fun _ => .response 401 "") 3 =
      { result := .error "API error: 401", attemptsMade := 1, waits := [] } ∧
    strContainsSub "API error: 401" "API key" = false := by
  decide

/-- C2, amended.  An HTTP 401 (or 403) on the first attempt always yields
zero retries and an immediate error return; the error message tells the
user to check their API key only when the status arrives as an
`httpx.HTTPStatusError` exception, while a plain non-200 response object
yields the generic `API error: {status}` message. -/
theorem c2_auth_failure_no_retry (outcomes : Nat → Provider.AttemptOutcome) (body : String) :
    (outcomes 0 = .httpStatusExc 401 →
      Provider.make_request outcomes 3 =
        { result := .error "Invalid API key. Please check your API key in Settings.",
          attemptsMade := 1, waits := [] }) ∧
    (outcomes 0 = .httpStatusExc 403 →
      Provider.make_request outcomes 3 =
        { result := .error "Access denied. Your API key may not have the required permissions.",
          attemptsMade := 1, waits := [] }) ∧
    (outcomes 0 = .response 401 body →
      Provider.make_request outcomes 3 =
        { result := .error "API error: 401", attemptsMade := 1, waits := [] }) ∧
    (outcomes 0 = .response 403 body →
      Provider.make_request outcomes 3 =
        { result := .error "API error: 403", attemptsMade := 1, waits := [] }) := by
  refine ⟨fun h => ?_, fun h => ?_, fun h => ?_, fun h => ?_⟩ <;>
    simp [Provider.make_request, Provider.makeRequestGo, h] <;> rfl

/-- C2, witness for `c2_auth_failure_no_retry` at a concrete outcome
sequence. -/
theorem c2_auth_failure_no_retry_witness :
    Provider.make_request (fun _ => .httpStatusExc 401) 3 =
      { result := .error "Invalid API key. Please check your API key in Settings.",
        attemptsMade := 1, waits := [] } :=
  (c2_auth_failure_no_retry (fun _ => .httpStatusExc 401) "").1 rfl

/-- C3.  For a backend answering HTTP 500, HTTP 500, then HTTP 200 on the
three successive attempts, `make_request` with the default budget of 3
performs exactly 2 retries (3 attempts in total) with exponentially
doubling backoff delays (1 s then 2 s) and returns the parsed body of the
third attempt. -/
theorem c3_two_retries_then_success (outcomes : Nat → Provider.AttemptOutcome)
    (b0 b1 body : String)
    (h0 : outcomes 0 = .response 500 b0) (h1 : outcomes 1 = .response 500 b1)
    (h2 : outcomes 2 = .response 200 body) :
    Provider.make_request outcomes 3 =
      { result := .ok body, attemptsMade := 3, waits := [1, 2] } := by
  simp [Provider.make_request, Provider.makeRequestGo, h0, h1, h2]

/-- C3, witness for `c3_two_retries_then_success` at a concrete outcome
sequence. -/
theorem c3_two_retries_then_success_witness :
    Provider.make_request
        (fun i => if i < 2 then .response 500 "" else .response 200 "BODY") 3 =
      { result := .ok "BODY", attemptsMade := 3, waits := [1, 2] } :=
  c3_two_retries_then_success _ "" "" "BODY" rfl rfl rfl

/-- C7, counterexample.  A backend that answers every attempt with a plain
HTTP 429 response object (what `httpx.Client.post` actually delivers,
since `make_request` never calls `raise_for_status`): no retry happens at
all — the status is not ≥ 500, so the loop returns `"API error: 429"`
after a single attempt with no backoff sleeps, instead of retrying with
the linear `5s × attempt` backoff. -/
theorem c7_counterexample :
    Provider.make_request (fun _ => .response 429 "") 3 =
      { result := .error "API error: 429", attemptsMade := 1, waits := [] } := by
  decide

/-- C7, amended.  When an HTTP 429 arrives as an `httpx.HTTPStatusError`
exception on every attempt, `make_request` (default budget 3) retries with
the linear backoff `5 s × attempt number` (sleeps 5 s then 10 s), and
returns the rate-limit error message only after exhausting all 3 attempts;
a plain 429 response object instead returns `"API error: 429"` immediately
with no retry. -/
theorem c7_rate_limit_backoff (outcomes : Nat → Provider.AttemptOutcome)
    (h : ∀ i, outcomes i = .httpStatusExc 429) :
    Provider.make_request outcomes 3 =
      { result := .error "Rate limit exceeded. Please wait a moment and try again.",
        attemptsMade := 3, waits := [5, 10] } := by
  simp [Provider.make_request, Provider.makeRequestGo, h 0, h 1, h 2]

/-- C7, witness for `c7_rate_limit_backoff` at a concrete outcome
sequence. -/
theorem c7_rate_limit_backoff_witness :
    Provider.make_request (fun _ => .httpStatusExc 429) 3 =
      { result := .error "Rate limit exceeded. Please wait a moment and try again.",
        attemptsMade := 3, waits := [5, 10] } :=
  c7_rate_limit_backoff (fun _ => .httpStatusExc 429) (fun _ => rfl)
